import Mathlib

set_option autoImplicit false

/-!
Verification of the student-management core: data model (`student_model.py`),
manager logic (`student_manager.py`), mock query agent (`llm_query_agent.py`)
and storage (`student_storage.py`), shallowly embedded in Lean.

The Python in-memory store `self._students : dict[str, Student]` is embedded
as an insertion-ordered association list `List (String × Student)` (Python
dicts preserve insertion order; assignment to an existing key keeps its
position).  Operations that in Python mutate state and raise exceptions are
embedded as pure functions returning the post-state paired with an optional
error: the returned state reflects exactly the mutations performed before the
raise, so "leaves the store unchanged" is a real statement about the
embedding, not a vacuity.
-/

namespace StudentSystem

/-- Student record, from the dataclass in `student_model.py`. -/
structure Student where
  sid : String
  name : String
  age : Int
  gender : String
  major : String
deriving DecidableEq, Repr

/-- The five validation rules of `StudentManager._validate_student_data`,
in source order.  Each constructor stands for the corresponding
`StudentError` message raised in the Python code. -/
inductive VRule where
  | idRule
  | nameRule
  | ageRule
  | genderRule
  | majorRule
deriving DecidableEq, Repr

/-- Business exceptions of `student_model.py`: `StudentAlreadyExistsError`,
`StudentNotFoundError`, and the base `StudentError` raised by validation
(identified here by which rule was violated). -/
inductive StudentError where
  | alreadyExists (sid : String)
  | notFound (sid : String)
  | validation (rule : VRule)
deriving DecidableEq, Repr

/-- The in-memory store `dict[str, Student]`, as an insertion-ordered
association list. -/
abbrev StudentMap := List (String × Student)

/-- Dictionary lookup, `self._students.get(sid)`. -/
def mapLookup (sid : String) (m : StudentMap) : Option Student :=
  match m with
  | [] => none
  | (k, v) :: rest => if k = sid then some v else mapLookup sid rest

/-- Dictionary assignment `self._students[sid] = student`: replaces in place
when the key exists (Python dicts keep the original position), appends
otherwise. -/
def mapInsert (sid : String) (s : Student) (m : StudentMap) : StudentMap :=
  match m with
  | [] => [(sid, s)]
  | (k, v) :: rest =>
    if k = sid then (sid, s) :: rest else (k, v) :: mapInsert sid s rest

/-- Dictionary deletion `del self._students[sid]`. -/
def mapErase (sid : String) (m : StudentMap) : StudentMap :=
  match m with
  | [] => []
  | (k, v) :: rest => if k = sid then rest else (k, v) :: mapErase sid rest

/-- Dictionary value view `self._students.values()`, in insertion order. -/
def mapValues (m : StudentMap) : List Student :=
  m.map Prod.snd

/-- Dictionary key view `self._students.keys()`, in insertion order. -/
def mapKeys (m : StudentMap) : List String :=
  m.map Prod.fst

/-- Lowercasing `text.lower()`; on the ASCII cue strings used by this system
Python and Lean lowercase identically. -/
def strLower (s : String) : String :=
  ⟨s.data.map Char.toLower⟩

/-- Python substring membership `needle in hay`. -/
def strIn (needle hay : String) : Bool :=
  decide (needle.data <:+: hay.data)

/- ## Validation (`StudentManager._validate_student_data`) -/

/-- Rule 1, `sid and sid.isalnum()`: non-empty and all alphanumeric. -/
def sidOk (sid : String) : Bool :=
  !sid.isEmpty && sid.data.all Char.isAlphanum

/-- Rule 2, `name and len(name) > 0`. -/
def nameOk (name : String) : Bool :=
  !name.isEmpty

/-- Rule 3, `isinstance(age, int) and 1 <= age <= 150` (the embedding types
`age` as an integer, so only the bounds remain). -/
def ageOk (age : Int) : Bool :=
  decide (1 ≤ age) && decide (age ≤ 150)

/-- Rule 4, `gender in ["Male", "Female"]`. -/
def genderOk (gender : String) : Bool :=
  gender == "Male" || gender == "Female"

/-- Rule 5, `major and len(major) > 0`. -/
def majorOk (major : String) : Bool :=
  !major.isEmpty

/-- Embedding of `StudentManager._validate_student_data`: the five checks in
source order, raising (here: returning) the first violated rule. -/
def validate_student_data (sid name : String) (age : Int) (gender major : String) :
    Except VRule Unit :=
  if !sidOk sid then .error .idRule
  else if !nameOk name then .error .nameRule
  else if !ageOk age then .error .ageRule
  else if !genderOk gender then .error .genderRule
  else if !majorOk major then .error .majorRule
  else .ok ()

/-- Specification-side view of validation: the ordered list of rules with
their outcomes on the given candidate data. -/
def orderedRules (sid name : String) (age : Int) (gender major : String) :
    List (Bool × VRule) :=
  [(sidOk sid, VRule.idRule), (nameOk name, VRule.nameRule),
   (ageOk age, VRule.ageRule), (genderOk gender, VRule.genderRule),
   (majorOk major, VRule.majorRule)]

/-- Specification-side view of validation: the first rule in the fixed order
whose check fails, if any. -/
def firstViolation (sid name : String) (age : Int) (gender major : String) :
    Option VRule :=
  ((orderedRules sid name age gender major).find? (fun r => !r.1)).map Prod.snd

/- ## CRUD operations (`StudentManager`) -/

/-- Embedding of `StudentManager.add_student`.  Returns the store after the
call together with the raised error, if any. -/
def add_student (student : Student) (m : StudentMap) :
    StudentMap × Option StudentError :=
  if (mapLookup student.sid m).isSome then
    (m, some (.alreadyExists student.sid))
  else
    match validate_student_data student.sid student.name student.age
        student.gender student.major with
    | .error r => (m, some (.validation r))
    | .ok _ => (mapInsert student.sid student m, none)

/-- Embedding of `StudentManager.query_student_by_id`. -/
def query_student_by_id (sid : String) (m : StudentMap) : Except StudentError Student :=
  match mapLookup sid m with
  | some s => .ok s
  | none => .error (.notFound sid)

/-- Embedding of `StudentManager.query_students_by_name`:
`[s for s in values if name_part.lower() in s.name.lower()]`. -/
def query_students_by_name (name_part : String) (m : StudentMap) : List Student :=
  (mapValues m).filter (fun s => strIn (strLower name_part) (strLower s.name))

/-- Field updates passed to `modify_student`.  The Python `updates` dict is
filtered against the keys `name`, `age`, `gender`, `major`; any other key is
ignored by the source, so only these four (each optional) are representable. -/
structure StudentUpdates where
  name : Option String
  age : Option Int
  gender : Option String
  major : Option String
deriving DecidableEq, Repr

/-- Embedding of `StudentManager.modify_student`: look up the student, merge
the updates over the current field values, validate the merged record (with
the stored, unchangeable `sid`), and only then commit. -/
def modify_student (sid : String) (updates : StudentUpdates) (m : StudentMap) :
    StudentMap × Option StudentError :=
  match query_student_by_id sid m with
  | .error e => (m, some e)
  | .ok student =>
    let newName := updates.name.getD student.name
    let newAge := updates.age.getD student.age
    let newGender := updates.gender.getD student.gender
    let newMajor := updates.major.getD student.major
    match validate_student_data student.sid newName newAge newGender newMajor with
    | .error r => (m, some (.validation r))
    | .ok _ =>
      (mapInsert sid
        { sid := student.sid, name := newName, age := newAge,
          gender := newGender, major := newMajor } m, none)

/-- Embedding of `StudentManager.delete_student`. -/
def delete_student (sid : String) (m : StudentMap) :
    StudentMap × Option StudentError :=
  if (mapLookup sid m).isSome then (mapErase sid m, none)
  else (m, some (.notFound sid))

/-- Embedding of `StudentManager.get_all_students`:
`[self._students[sid] for sid in sorted(self._students.keys())]`. -/
def get_all_students (m : StudentMap) : List Student :=
  (List.insertionSort (· ≤ ·) (mapKeys m)).filterMap (fun k => mapLookup k m)

/- ## Query parameters and the natural-language filter -/

/-- The query parameter mapping produced by the agent (`Dict[str, Any]` with
keys among `major`, `gender`, `age_min`, `age_max`, `name_part`); a `none`
field is an absent key. -/
structure QueryParams where
  major : Option String
  gender : Option String
  age_min : Option Int
  age_max : Option Int
  name_part : Option String
deriving DecidableEq, Repr

/-- The empty parameter dictionary. -/
def noParams : QueryParams :=
  ⟨none, none, none, none, none⟩

/-- Major filter stage of `query_by_natural_language`: skipped when the
`major` key is absent. -/
def majorFilter (p : QueryParams) (l : List Student) : List Student :=
  match p.major with
  | some v => l.filter (fun s => s.major == v)
  | none => l

/-- Gender filter stage: skipped when the `gender` key is absent. -/
def genderFilter (p : QueryParams) (l : List Student) : List Student :=
  match p.gender with
  | some v => l.filter (fun s => s.gender == v)
  | none => l

/-- Minimum-age filter stage (inclusive, `s.age >= age_min`). -/
def ageMinFilter (p : QueryParams) (l : List Student) : List Student :=
  match p.age_min with
  | some v => l.filter (fun s => decide (v ≤ s.age))
  | none => l

/-- Maximum-age filter stage (inclusive, `s.age <= age_max`). -/
def ageMaxFilter (p : QueryParams) (l : List Student) : List Student :=
  match p.age_max with
  | some v => l.filter (fun s => decide (s.age ≤ v))
  | none => l

/-- Name-substring filter stage (case-insensitive). -/
def namePartFilter (p : QueryParams) (l : List Student) : List Student :=
  match p.name_part with
  | some v => l.filter (fun s => strIn (strLower v) (strLower s.name))
  | none => l

/-- Embedding of the filtering section of
`StudentManager.query_by_natural_language` (the part after the agent has
produced `query_params`): the five narrowing stages in source order. -/
def query_by_natural_language (p : QueryParams) (m : StudentMap) : List Student :=
  namePartFilter p (ageMaxFilter p (ageMinFilter p (genderFilter p (majorFilter p (mapValues m)))))

/- ## Mock query agent (`LLMQueryAgent.parse_query`) -/

/-- Parameter-extraction section of `LLMQueryAgent.parse_query`, operating on
the lowercased text: age cues, then gender cues (female before male, via
`elif`), then major cues (computer-science before finance, via `elif`). -/
def extract_params (text : String) : QueryParams :=
  let p := noParams
  let p := if strIn "greater than 20" text || strIn "over 20" text ||
      strIn "20+" text || strIn "大于20" text || strIn "20岁以上" text then
    { p with age_min := some 20 } else p
  let p := if strIn "less than 18" text || strIn "under 18" text ||
      strIn "小于18" text || strIn "18岁以下" text then
    { p with age_max := some 18 } else p
  let p := if strIn "female" text || strIn "girl" text || strIn "女生" text ||
      strIn "女性" text then
    { p with gender := some "Female" }
  else if strIn "male" text || strIn "boy" text || strIn "男生" text ||
      strIn "男性" text then
    { p with gender := some "Male" } else p
  let p := if strIn "computer science" text || strIn "cs" text ||
      strIn "software engineering" text || strIn "计算机" text ||
      strIn "软件工程" text then
    { p with major := some "Computer Science" }
  else if strIn "finance" text || strIn "business" text || strIn "金融" text then
    { p with major := some "Finance" } else p
  p

/-- Embedding of `LLMQueryAgent.parse_query`: lowercase the input, extract
parameters from keyword cues, and fail when nothing was recognized (with a
distinct message when the text contains exploratory phrasing). -/
def parse_query (natural_language_text : String) : Except String QueryParams :=
  let text := strLower natural_language_text
  let p := extract_params text
  if p = noParams && (strIn "about" text || strIn "who is" text ||
      strIn "关于" text || strIn "谁是" text) then
    .error "LLM failed to extract valid filtering parameters from the natural language input. Please try a more specific query."
  else if p = noParams then
    .error "LLM Parsing Failed: No valid filtering conditions were recognized."
  else
    .ok p

/- ## Storage (`StudentStorage`) -/

/-- Embedding of `StudentStorage.save_data`.  The behaviour of the external
medium is a parameter `writeOutcome` (what the `pickle.dump`/file write would
do with the given store).  The Python method wraps the write in
`try/except Exception: print(...)`, so both outcomes produce no propagated
error. -/
def save_data (writeOutcome : StudentMap → Except String Unit)
    (students : StudentMap) : Option String :=
  match writeOutcome students with
  | .ok _ => none
  | .error _ => none

/-- Embedding of `StudentManager.save_and_exit`: delegates the full store to
the storage and returns the (unchanged) store with any propagated error. -/
def save_and_exit (writeOutcome : StudentMap → Except String Unit)
    (m : StudentMap) : StudentMap × Option String :=
  (m, save_data writeOutcome m)

/-- Embedding of `StudentStorage.load_data`.  The external file state is a
parameter: `none` when no data file exists, otherwise the result of
unpickling it.  Missing file and failed unpickling both degrade to the empty
store. -/
def load_data (fileContents : Option (Except String StudentMap)) : StudentMap :=
  match fileContents with
  | none => []
  | some (.error _) => []
  | some (.ok m) => m

/- ## Store invariant -/

/-- Store invariant: every key equals the `sid` field of the record it maps
to, and no two entries share a key. -/
def WF (m : StudentMap) : Prop :=
  (∀ p ∈ m, p.1 = p.2.sid) ∧ (mapKeys m).Nodup

instance (m : StudentMap) : Decidable (WF m) := by
  unfold WF
  infer_instance

/- ## Association-list lemmas -/

@[simp] theorem mapKeys_nil : mapKeys [] = [] := rfl

@[simp] theorem mapKeys_cons (k : String) (v : Student) (m : StudentMap) :
    mapKeys ((k, v) :: m) = k :: mapKeys m := rfl

@[simp] theorem mapValues_nil : mapValues [] = [] := rfl

@[simp] theorem mapValues_cons (k : String) (v : Student) (m : StudentMap) :
    mapValues ((k, v) :: m) = v :: mapValues m := rfl

theorem mapLookup_mapInsert_self (k : String) (v : Student) (m : StudentMap) :
    mapLookup k (mapInsert k v m) = some v := by
  induction m with
  | nil => simp [mapInsert, mapLookup]
  | cons hd tl ih =>
    obtain ⟨k', v'⟩ := hd
    by_cases h : k' = k <;> simp [mapInsert, mapLookup, h, ih]

theorem mapLookup_isSome_iff (k : String) (m : StudentMap) :
    (mapLookup k m).isSome = true ↔ k ∈ mapKeys m := by
  induction m with
  | nil => simp [mapLookup]
  | cons hd tl ih =>
    obtain ⟨k', v'⟩ := hd
    by_cases h : k' = k
    · simp [mapLookup, h]
    · have h' : ¬ k = k' := fun hh => h hh.symm
      simp [mapLookup, h, h', ih]

theorem mapLookup_eq_none_iff (k : String) (m : StudentMap) :
    mapLookup k m = none ↔ k ∉ mapKeys m := by
  induction m with
  | nil => simp [mapLookup]
  | cons hd tl ih =>
    obtain ⟨k', v'⟩ := hd
    by_cases h : k' = k
    · simp [mapLookup, h]
    · have h' : ¬ k = k' := fun hh => h hh.symm
      simp [mapLookup, h, h', ih]

theorem mapLookup_mem (k : String) (v : Student) (m : StudentMap)
    (h : mapLookup k m = some v) : (k, v) ∈ m := by
  induction m with
  | nil => simp [mapLookup] at h
  | cons hd tl ih =>
    obtain ⟨k', v'⟩ := hd
    by_cases hk : k' = k
    · subst hk
      simp [mapLookup] at h
      simp [h]
    · simp [mapLookup, hk] at h
      exact List.mem_cons_of_mem _ (ih h)

theorem mapLookup_eq_some_of_mem (k : String) (v : Student) (m : StudentMap)
    (hn : (mapKeys m).Nodup) (h : (k, v) ∈ m) : mapLookup k m = some v := by
  induction m with
  | nil => simp at h
  | cons hd tl ih =>
    obtain ⟨k', v'⟩ := hd
    simp at hn
    rcases List.mem_cons.mp h with heq | htl
    · obtain ⟨h1, h2⟩ := Prod.mk.injEq .. ▸ heq
      simp [mapLookup, h1.symm, h2]
    · have hk : k' ≠ k := by
        rintro rfl
        exact hn.1 (List.mem_map_of_mem Prod.fst htl)
      simp [mapLookup, hk, ih hn.2 htl]

theorem mapKeys_mapInsert (k : String) (v : Student) (m : StudentMap) :
    mapKeys (mapInsert k v m)
      = if k ∈ mapKeys m then mapKeys m else mapKeys m ++ [k] := by
  induction m with
  | nil => simp [mapInsert]
  | cons hd tl ih =>
    obtain ⟨k', v'⟩ := hd
    by_cases h : k' = k
    · subst h
      simp [mapInsert]
    · have hne : ¬ k = k' := fun hEq => h hEq.symm
      by_cases hmem : k ∈ mapKeys tl <;>
        simp [mapInsert, h, hne, hmem, ih]

theorem mem_mapInsert (p : String × Student) (k : String) (v : Student)
    (m : StudentMap) (h : p ∈ mapInsert k v m) : p = (k, v) ∨ p ∈ m := by
  induction m with
  | nil => simpa [mapInsert] using h
  | cons hd tl ih =>
    obtain ⟨k', v'⟩ := hd
    by_cases hk : k' = k
    · subst hk
      rcases List.mem_cons.mp (by simpa [mapInsert] using h) with h1 | h1
      · exact Or.inl h1
      · exact Or.inr (List.mem_cons_of_mem _ h1)
    · rcases List.mem_cons.mp (by simpa [mapInsert, hk] using h) with h1 | h1
      · exact Or.inr (List.mem_cons.mpr (Or.inl h1))
      · rcases ih h1 with h2 | h2
        · exact Or.inl h2
        · exact Or.inr (List.mem_cons_of_mem _ h2)

theorem mem_mapErase (p : String × Student) (k : String) (m : StudentMap)
    (h : p ∈ mapErase k m) : p ∈ m := by
  induction m with
  | nil => simpa [mapErase] using h
  | cons hd tl ih =>
    obtain ⟨k', v'⟩ := hd
    by_cases hk : k' = k
    · exact List.mem_cons_of_mem _ (by simpa [mapErase, hk] using h)
    · rcases List.mem_cons.mp (by simpa [mapErase, hk] using h) with h1 | h1
      · exact List.mem_cons.mpr (Or.inl h1)
      · exact List.mem_cons_of_mem _ (ih h1)

theorem mapKeys_mapErase_sublist (k : String) (m : StudentMap) :
    (mapKeys (mapErase k m)).Sublist (mapKeys m) := by
  induction m with
  | nil => simp [mapErase]
  | cons hd tl ih =>
    obtain ⟨k', v'⟩ := hd
    by_cases hk : k' = k
    · simpa [mapErase, hk] using (List.sublist_cons_self k' (mapKeys tl))
    · simpa [mapErase, hk] using ih.cons₂ k'

theorem WF_mapInsert (k : String) (v : Student) (m : StudentMap)
    (h : WF m) (hk : k = v.sid) : WF (mapInsert k v m) := by
  obtain ⟨hfield, hnodup⟩ := h
  constructor
  · intro p hp
    rcases mem_mapInsert p k v m hp with h1 | h1
    · subst h1
      exact hk
    · exact hfield p h1
  · rw [mapKeys_mapInsert]
    by_cases hmem : k ∈ mapKeys m
    · simpa [hmem] using hnodup
    · simp only [hmem, if_false]
      simp [List.nodup_append, hnodup, hmem]

theorem WF_mapErase (k : String) (m : StudentMap) (h : WF m) :
    WF (mapErase k m) := by
  obtain ⟨hfield, hnodup⟩ := h
  exact ⟨fun p hp => hfield p (mem_mapErase p k m hp),
    hnodup.sublist (mapKeys_mapErase_sublist k m)⟩

theorem mapLookup_perm (k : String) (m₁ m₂ : StudentMap)
    (hp : m₁.Perm m₂) (hn : (mapKeys m₁).Nodup) :
    mapLookup k m₁ = mapLookup k m₂ := by
  have hn₂ : (mapKeys m₂).Nodup := ((hp.map Prod.fst).nodup_iff).mp hn
  cases h : mapLookup k m₁ with
  | some v =>
    exact (mapLookup_eq_some_of_mem k v m₂ hn₂
      (hp.mem_iff.mp (mapLookup_mem k v m₁ h))).symm
  | none =>
    have : k ∉ mapKeys m₂ := by
      intro hmem
      exact (mapLookup_eq_none_iff k m₁).mp h
        (((hp.map Prod.fst).mem_iff).mpr hmem)
    exact ((mapLookup_eq_none_iff k m₂).mpr this).symm

theorem filterMap_mapLookup_keys (m : StudentMap)
    (hn : (mapKeys m).Nodup) :
    (mapKeys m).filterMap (fun k => mapLookup k m) = mapValues m := by
  induction m with
  | nil => simp [mapLookup]
  | cons hd tl ih =>
    obtain ⟨k', v'⟩ := hd
    simp at hn
    have congr1 : ∀ a ∈ mapKeys tl,
        mapLookup a ((k', v') :: tl) = mapLookup a tl := by
      intro a ha
      have : k' ≠ a := by
        rintro rfl
        exact hn.1 ha
      simp [mapLookup, this]
    calc (mapKeys ((k', v') :: tl)).filterMap (fun k => mapLookup k ((k', v') :: tl))
        = v' :: (mapKeys tl).filterMap (fun k => mapLookup k ((k', v') :: tl)) := by
          simp [mapLookup]
      _ = v' :: (mapKeys tl).filterMap (fun k => mapLookup k tl) := by
          rw [List.filterMap_congr congr1]
      _ = mapValues ((k', v') :: tl) := by rw [ih hn.2]; simp

theorem sid_of_mapLookup (k : String) (v : Student) (m : StudentMap)
    (hw : WF m) (h : mapLookup k m = some v) : v.sid = k :=
  (hw.1 (k, v) (mapLookup_mem k v m h)).symm

theorem map_sid_filterMap_lookup (ks : List String) (m : StudentMap)
    (hw : WF m) (hks : ∀ k ∈ ks, k ∈ mapKeys m) :
    (ks.filterMap (fun k => mapLookup k m)).map Student.sid = ks := by
  induction ks with
  | nil => simp
  | cons k ks ih =>
    have hk : k ∈ mapKeys m := hks k (List.mem_cons_self k ks)
    obtain ⟨v, hv⟩ := Option.isSome_iff_exists.mp ((mapLookup_isSome_iff k m).mpr hk)
    simp only [List.filterMap_cons, hv, List.map_cons]
    rw [sid_of_mapLookup k v m hw hv,
      ih (fun a ha => hks a (List.mem_cons_of_mem _ ha))]

/- ## Filter-stage algebra -/

/-- The five filter stages of `query_by_natural_language`, named after the
parameter key each one consumes. -/
inductive Stage where
  | major
  | gender
  | ageMin
  | ageMax
  | namePart
deriving DecidableEq, Repr

/-- The filter stages in the fixed order of the source. -/
def sourceOrder : List Stage :=
  [Stage.major, Stage.gender, Stage.ageMin, Stage.ageMax, Stage.namePart]

/-- Per-record predicate of a filter stage of `query_by_natural_language`;
an absent key imposes no constraint. -/
def stagePred (i : Stage) (p : QueryParams) (s : Student) : Bool :=
  match i with
  | .major => match p.major with | some v => s.major == v | none => true
  | .gender => match p.gender with | some v => s.gender == v | none => true
  | .ageMin => match p.age_min with | some v => decide (v ≤ s.age) | none => true
  | .ageMax => match p.age_max with | some v => decide (s.age ≤ v) | none => true
  | .namePart => match p.name_part with
                 | some v => strIn (strLower v) (strLower s.name)
                 | none => true

/-- Application of a sequence of filter stages, each narrowing the previous
result set. -/
def applyStages (stages : List Stage) (p : QueryParams) (l : List Student) :
    List Student :=
  stages.foldl (fun acc i => acc.filter (stagePred i p)) l

/-- Specification-side predicate: a record satisfies the conjunction of all
filter predicates present in the parameter mapping. -/
def matchesParams (p : QueryParams) (s : Student) : Bool :=
  (match p.major with | some v => s.major == v | none => true) &&
  (match p.gender with | some v => s.gender == v | none => true) &&
  (match p.age_min with | some v => decide (v ≤ s.age) | none => true) &&
  (match p.age_max with | some v => decide (s.age ≤ v) | none => true) &&
  (match p.name_part with
   | some v => strIn (strLower v) (strLower s.name)
   | none => true)

theorem majorFilter_eq_filter (p : QueryParams) (l : List Student) :
    majorFilter p l = l.filter (stagePred .major p) := by
  cases h : p.major
  · simp only [majorFilter, h]
    exact (List.filter_eq_self.mpr (fun s _ => by simp [stagePred, h])).symm
  · simp only [majorFilter, h]
    exact List.filter_congr (fun s _ => by simp [stagePred, h])

theorem genderFilter_eq_filter (p : QueryParams) (l : List Student) :
    genderFilter p l = l.filter (stagePred .gender p) := by
  cases h : p.gender
  · simp only [genderFilter, h]
    exact (List.filter_eq_self.mpr (fun s _ => by simp [stagePred, h])).symm
  · simp only [genderFilter, h]
    exact List.filter_congr (fun s _ => by simp [stagePred, h])

theorem ageMinFilter_eq_filter (p : QueryParams) (l : List Student) :
    ageMinFilter p l = l.filter (stagePred .ageMin p) := by
  cases h : p.age_min
  · simp only [ageMinFilter, h]
    exact (List.filter_eq_self.mpr (fun s _ => by simp [stagePred, h])).symm
  · simp only [ageMinFilter, h]
    exact List.filter_congr (fun s _ => by simp [stagePred, h])

theorem ageMaxFilter_eq_filter (p : QueryParams) (l : List Student) :
    ageMaxFilter p l = l.filter (stagePred .ageMax p) := by
  cases h : p.age_max
  · simp only [ageMaxFilter, h]
    exact (List.filter_eq_self.mpr (fun s _ => by simp [stagePred, h])).symm
  · simp only [ageMaxFilter, h]
    exact List.filter_congr (fun s _ => by simp [stagePred, h])

theorem namePartFilter_eq_filter (p : QueryParams) (l : List Student) :
    namePartFilter p l = l.filter (stagePred .namePart p) := by
  cases h : p.name_part
  · simp only [namePartFilter, h]
    exact (List.filter_eq_self.mpr (fun s _ => by simp [stagePred, h])).symm
  · simp only [namePartFilter, h]
    exact List.filter_congr (fun s _ => by simp [stagePred, h])

theorem applyStages_eq_filter_all (stages : List Stage) (p : QueryParams)
    (l : List Student) :
    applyStages stages p l
      = l.filter (fun s => stages.all (fun i => stagePred i p s)) := by
  induction stages generalizing l with
  | nil => simp [applyStages, List.filter_true]
  | cons i is ih =>
    simp only [applyStages, List.foldl_cons] at *
    rw [ih (l.filter (stagePred i p)), List.filter_filter]
    exact List.filter_congr (fun s _ => by
      simp [List.all_cons, Bool.and_comm])

theorem all_of_perm {α : Type} (f : α → Bool) (l₁ l₂ : List α)
    (h : l₁.Perm l₂) : l₁.all f = l₂.all f := by
  have hiff : l₁.all f = true ↔ l₂.all f = true := by
    rw [List.all_eq_true, List.all_eq_true]
    exact ⟨fun H x hx => H x (h.mem_iff.mpr hx),
      fun H x hx => H x (h.mem_iff.mp hx)⟩
  cases hA : l₁.all f <;> cases hB : l₂.all f <;> simp_all

theorem applyStages_perm_eq (stages : List Stage) (p : QueryParams)
    (l : List Student) (h : stages.Perm sourceOrder) :
    applyStages stages p l = applyStages sourceOrder p l := by
  rw [applyStages_eq_filter_all, applyStages_eq_filter_all]
  exact List.filter_congr (fun s _ => all_of_perm (fun i => stagePred i p s) _ _ h)

theorem query_eq_applyStages (p : QueryParams) (m : StudentMap) :
    query_by_natural_language p m = applyStages sourceOrder p (mapValues m) := by
  simp only [query_by_natural_language, applyStages, sourceOrder,
    List.foldl_cons, List.foldl_nil,
    majorFilter_eq_filter, genderFilter_eq_filter, ageMinFilter_eq_filter,
    ageMaxFilter_eq_filter, namePartFilter_eq_filter]

theorem query_eq_filter_matches (p : QueryParams) (m : StudentMap) :
    query_by_natural_language p m = (mapValues m).filter (matchesParams p) := by
  rw [query_eq_applyStages, applyStages_eq_filter_all]
  refine List.filter_congr (fun s _ => ?_)
  show sourceOrder.all (fun i => stagePred i p s) = matchesParams p s
  simp only [sourceOrder, List.all_cons, List.all_nil, Bool.and_true,
    stagePred, matchesParams, Bool.and_assoc]

/- ## Validation as first-violated-rule -/

/-- Packaging of an optional violated rule as the outcome of validation. -/
def exceptOfFirst (o : Option VRule) : Except VRule Unit :=
  match o with
  | some r => .error r
  | none => .ok ()

theorem validate_eq_firstViolation (sid name : String) (age : Int)
    (gender major : String) :
    validate_student_data sid name age gender major
      = exceptOfFirst (firstViolation sid name age gender major) := by
  unfold validate_student_data firstViolation orderedRules exceptOfFirst
  cases sidOk sid <;> cases nameOk name <;> cases ageOk age <;>
    cases genderOk gender <;> cases majorOk major <;> simp [List.find?]

/- ## Lemmas about get_all_students -/

theorem get_all_perm_values (m : StudentMap) (hw : WF m) :
    (get_all_students m).Perm (mapValues m) := by
  unfold get_all_students
  have hperm := (List.perm_insertionSort (· ≤ ·) (mapKeys m)).filterMap
    (fun k => mapLookup k m)
  rw [filterMap_mapLookup_keys m hw.2] at hperm
  exact hperm

theorem map_sid_get_all (m : StudentMap) (hw : WF m) :
    (get_all_students m).map Student.sid
      = List.insertionSort (· ≤ ·) (mapKeys m) := by
  unfold get_all_students
  exact map_sid_filterMap_lookup _ m hw
    (fun k hk => (List.perm_insertionSort (· ≤ ·) (mapKeys m)).subset hk)

theorem get_all_sorted_strict (m : StudentMap) (hw : WF m) :
    ((get_all_students m).map Student.sid).Sorted (· < ·) := by
  rw [map_sid_get_all m hw]
  have hs : (List.insertionSort (· ≤ ·) (mapKeys m)).Sorted (· ≤ ·) :=
    List.sorted_insertionSort _ _
  have hn : (List.insertionSort (· ≤ ·) (mapKeys m)).Nodup :=
    (List.perm_insertionSort (· ≤ ·) (mapKeys m)).nodup_iff.mpr hw.2
  exact hs.lt_of_le hn

theorem get_all_perm_store (m₁ m₂ : StudentMap) (hw : WF m₁)
    (hp : m₁.Perm m₂) : get_all_students m₁ = get_all_students m₂ := by
  have hkeys : (mapKeys m₁).Perm (mapKeys m₂) := hp.map Prod.fst
  have hsorted : List.insertionSort (· ≤ ·) (mapKeys m₁)
      = List.insertionSort (· ≤ ·) (mapKeys m₂) :=
    List.eq_of_perm_of_sorted
      ((List.perm_insertionSort _ _).trans
        (hkeys.trans (List.perm_insertionSort _ _).symm))
      (List.sorted_insertionSort _ _) (List.sorted_insertionSort _ _)
  unfold get_all_students
  rw [hsorted]
  exact List.filterMap_congr (fun k _ => mapLookup_perm k m₁ m₂ hp hw.2)

/- ## Concrete records used by the claims and their witnesses -/

/-- Record S1 of the spec test store (id S1, age 25, Female, Finance). -/
def demoS1 : Student := ⟨"S1", "Alice", 25, "Female", "Finance"⟩

/-- Record S2 of the spec test store (id S2, age 17, Male, Computer Science). -/
def demoS2 : Student := ⟨"S2", "Bob", 17, "Male", "Computer Science"⟩

/-- The two-record store of the spec test case. -/
def demoStore : StudentMap := [("S1", demoS1), ("S2", demoS2)]

/-- The same store with insertion order reversed. -/
def demoStoreRev : StudentMap := [("S2", demoS2), ("S1", demoS1)]

/-- A one-record store holding only S1. -/
def demoStoreS1 : StudentMap := [("S1", demoS1)]

/-- A fresh valid record whose id is not in the demo store. -/
def freshStudent : Student := ⟨"S3", "Cara", 30, "Female", "Math"⟩

/-- An invalid candidate: empty name (rule 2), age out of range (rule 3) and
bad gender (rule 4); rule 2 is the first violated. -/
def badStudent : Student := ⟨"S9", "", 200, "x", ""⟩

/-- A record reusing the id S1 already present in the demo store. -/
def dupStudent : Student := ⟨"S1", "Eve", 30, "Female", "Math"⟩

/-- The empty update set. -/
def noUpdates : StudentUpdates := ⟨none, none, none, none⟩

/- ## Claims -/

/-- Claim C1, corrected.  The filtering part of `query_by_natural_language`
applies the five filters in the fixed order major, gender, age_min, age_max,
name_part (first conjunct, with each stage a skip-if-absent narrowing step),
returns exactly the records satisfying every filter present in the mapping
(second conjunct), and on the store {S1, S2} of the claim with mapping
{gender: Female, age_min: 20} returns exactly {S1} (third conjunct).
Contrary to the claim, the parameter mapping is not part of the return
value (see the counterexample theorem). -/
theorem C1_query_filter_pipeline (p : QueryParams) (m : StudentMap) :
    query_by_natural_language p m
      = namePartFilter p (ageMaxFilter p (ageMinFilter p
          (genderFilter p (majorFilter p (mapValues m)))))
    ∧ (∀ s, s ∈ query_by_natural_language p m
        ↔ s ∈ mapValues m ∧ matchesParams p s = true)
    ∧ query_by_natural_language ⟨none, some "Female", some 20, none, none⟩
        demoStore = [demoS1] :=
  ⟨rfl,
   fun s => by rw [query_eq_filter_matches]; exact List.mem_filter,
   rfl⟩

/-- Claim C1, counterexample to the claim as stated.  The claim says the
operation returns the narrowed set together with the parameter mapping used.
But two distinct parameter mappings, both producible by the query agent,
give identical return values on the same store, so the return value cannot
contain the mapping: `query_by_natural_language` returns only the list of
records. -/
theorem C1_params_not_in_return :
    parse_query "female" = .ok ⟨none, some "Female", none, none, none⟩
    ∧ parse_query "female over 20" = .ok ⟨none, some "Female", some 20, none, none⟩
    ∧ (⟨none, some "Female", none, none, none⟩ : QueryParams)
        ≠ ⟨none, some "Female", some 20, none, none⟩
    ∧ query_by_natural_language ⟨none, some "Female", none, none, none⟩ demoStoreS1
        = query_by_natural_language ⟨none, some "Female", some 20, none, none⟩ demoStoreS1 :=
  ⟨rfl, rfl, by decide, rfl⟩

/-- Claim C2.  Validation computes exactly the first violated rule in the
fixed order id, name, age, gender, major (first conjunct, against the
independent `firstViolation` specification), and any validation failure on
the add path or on the update path with merged fields leaves the store
unchanged (second and third conjuncts). -/
theorem C2_validation_first_rule (sid name : String) (age : Int)
    (gender major : String) (s : Student) (sid2 : String)
    (u : StudentUpdates) (m : StudentMap) :
    validate_student_data sid name age gender major
      = exceptOfFirst (firstViolation sid name age gender major)
    ∧ (∀ r, (add_student s m).2 = some (.validation r) → (add_student s m).1 = m)
    ∧ (∀ r, (modify_student sid2 u m).2 = some (.validation r)
        → (modify_student sid2 u m).1 = m) := by
  refine ⟨validate_eq_firstViolation sid name age gender major, ?_, ?_⟩
  · intro r h
    unfold add_student at h ⊢
    cases hs : (mapLookup s.sid m).isSome
    · cases hv : validate_student_data s.sid s.name s.age s.gender s.major
      · simp [hs, hv]
      · simp [hs, hv] at h
    · simp [hs]
  · intro r h
    unfold modify_student query_student_by_id at h ⊢
    cases hq : mapLookup sid2 m
    · simp [hq]
    · rename_i st
      cases hv : validate_student_data st.sid (u.name.getD st.name)
        (u.age.getD st.age) (u.gender.getD st.gender) (u.major.getD st.major)
      · simp [hq, hv]
      · simp [hq, hv] at h

/-- Claim C2, witness: a concrete candidate violating rules 2, 3 and 4 at
once is reported with rule 2 (the first in order), and the failing add
leaves the store unchanged. -/
theorem C2_witness :
    validate_student_data "S9" "" 200 "x" ""
      = exceptOfFirst (firstViolation "S9" "" 200 "x" "")
    ∧ (add_student badStudent demoStore).2 = some (.validation .nameRule)
    ∧ (add_student badStudent demoStore).1 = demoStore :=
  ⟨(C2_validation_first_rule "S9" "" 200 "x" "" badStudent "S9" noUpdates demoStore).1,
   rfl,
   (C2_validation_first_rule "S9" "" 200 "x" "" badStudent "S9" noUpdates
     demoStore).2.1 VRule.nameRule rfl⟩

/-- Claim C3, corrected.  `save_and_exit` delegates the full store to the
storage and never mutates it; but because the reference
`StudentStorage.save_data` wraps the write in a catch-all handler that only
logs, no failure of the underlying medium is ever propagated to the caller:
for every write outcome the result is the unchanged store and no error. -/
theorem C3_save_no_mutation_no_propagation
    (w : StudentMap → Except String Unit) (m : StudentMap) :
    save_and_exit w m = (m, none) := by
  unfold save_and_exit save_data
  cases w m <;> rfl

/-- Claim C3, counterexample to the claim as stated: an underlying save that
fails (here, the write outcome is an error for every store) is not
propagated — the caller sees no error at all, and the store is unchanged. -/
theorem C3_failure_swallowed :
    (fun _ : StudentMap => (Except.error "disk full" : Except String Unit))
      demoStore = Except.error "disk full"
    ∧ save_and_exit (fun _ => Except.error "disk full") demoStore
        = (demoStore, none) :=
  ⟨rfl, rfl⟩

/-- Claim C4.  Adding a record whose id is already a key of the store fails
with AlreadyExists and returns the store unchanged. -/
theorem C4_add_duplicate (s : Student) (m : StudentMap)
    (h : s.sid ∈ mapKeys m) :
    add_student s m = (m, some (.alreadyExists s.sid)) := by
  simp [add_student, (mapLookup_isSome_iff s.sid m).mpr h]

/-- Claim C4, witness: adding a second record with id S1 to the demo store
fails with AlreadyExists and leaves the store unchanged. -/
theorem C4_witness :
    dupStudent.sid ∈ mapKeys demoStore
    ∧ add_student dupStudent demoStore
        = (demoStore, some (.alreadyExists "S1")) :=
  ⟨by decide, C4_add_duplicate dupStudent demoStore (by decide)⟩

/-- Claim C5.  Adding a record that passes all five validation rules and
whose id is absent succeeds, and a subsequent lookup by its id returns the
very record (all fields equal). -/
theorem C5_add_then_get (s : Student) (m : StudentMap)
    (hv : validate_student_data s.sid s.name s.age s.gender s.major = .ok ())
    (habs : mapLookup s.sid m = none) :
    (add_student s m).2 = none
    ∧ query_student_by_id s.sid (add_student s m).1 = .ok s := by
  have h1 : add_student s m = (mapInsert s.sid s m, none) := by
    simp [add_student, habs, hv]
  rw [h1]
  exact ⟨rfl, by simp [query_student_by_id, mapLookup_mapInsert_self]⟩

/-- Claim C5, witness: adding the fresh valid record S3 to the demo store
and reading it back returns it unchanged. -/
theorem C5_witness :
    validate_student_data "S3" "Cara" 30 "Female" "Math" = .ok ()
    ∧ mapLookup "S3" demoStore = none
    ∧ query_student_by_id "S3" (add_student freshStudent demoStore).1
        = .ok freshStudent :=
  ⟨rfl, rfl, (C5_add_then_get freshStudent demoStore rfl rfl).2⟩

theorem WF_nil : WF ([] : StudentMap) :=
  ⟨fun p hp => absurd hp (List.not_mem_nil p), List.nodup_nil⟩

/-- Claim C6.  The store invariant (each key equals the sid of its record,
no duplicate keys) holds after every load outcome (no file, corrupt file,
or a well-formed saved store) and is preserved by add, update and delete;
update never changes the id of the record it updates, and under the
invariant no two stored records share an id. -/
theorem C6_invariant (m : StudentMap) (s : Student) (sid : String)
    (u : StudentUpdates) (h : WF m) :
    WF (load_data none)
    ∧ (∀ e, WF (load_data (some (.error e))))
    ∧ WF (load_data (some (.ok m)))
    ∧ WF (add_student s m).1
    ∧ WF (modify_student sid u m).1
    ∧ WF (delete_student sid m).1
    ∧ (mapLookup sid (modify_student sid u m).1).map Student.sid
        = (mapLookup sid m).map Student.sid
    ∧ ((mapValues m).map Student.sid).Nodup := by
  refine ⟨WF_nil, fun e => WF_nil, h, ?_, ?_, ?_, ?_, ?_⟩
  · unfold add_student
    cases hs : (mapLookup s.sid m).isSome
    · cases hv : validate_student_data s.sid s.name s.age s.gender s.major
      · simpa [hs, hv] using h
      · simpa [hs, hv] using WF_mapInsert s.sid s m h rfl
    · simpa [hs] using h
  · cases hq : mapLookup sid m
    · have hres : (modify_student sid u m).1 = m := by
        simp [modify_student, query_student_by_id, hq]
      rw [hres]
      exact h
    · rename_i st
      cases hv : validate_student_data st.sid (u.name.getD st.name)
        (u.age.getD st.age) (u.gender.getD st.gender) (u.major.getD st.major)
      · have hres : (modify_student sid u m).1 = m := by
          simp [modify_student, query_student_by_id, hq, hv]
        rw [hres]
        exact h
      · have hsid : st.sid = sid := sid_of_mapLookup sid st m h hq
        have hres : (modify_student sid u m).1
            = mapInsert sid
                ⟨st.sid, u.name.getD st.name, u.age.getD st.age,
                  u.gender.getD st.gender, u.major.getD st.major⟩ m := by
          simp [modify_student, query_student_by_id, hq, hv]
        rw [hres]
        exact WF_mapInsert sid _ m h hsid.symm
  · unfold delete_student
    cases hs : (mapLookup sid m).isSome
    · simpa [hs] using h
    · simpa [hs] using WF_mapErase sid m h
  · cases hq : mapLookup sid m
    · have hres : (modify_student sid u m).1 = m := by
        simp [modify_student, query_student_by_id, hq]
      rw [hres, hq]
    · rename_i st
      cases hv : validate_student_data st.sid (u.name.getD st.name)
        (u.age.getD st.age) (u.gender.getD st.gender) (u.major.getD st.major)
      · have hres : (modify_student sid u m).1 = m := by
          simp [modify_student, query_student_by_id, hq, hv]
        rw [hres, hq]
      · have hres : (modify_student sid u m).1
            = mapInsert sid
                ⟨st.sid, u.name.getD st.name, u.age.getD st.age,
                  u.gender.getD st.gender, u.major.getD st.major⟩ m := by
          simp [modify_student, query_student_by_id, hq, hv]
        rw [hres, mapLookup_mapInsert_self]
        rfl
  · have hmap : (mapValues m).map Student.sid = mapKeys m := by
      unfold mapValues mapKeys
      rw [List.map_map]
      exact List.map_congr_left (fun p hp => (h.1 p hp).symm)
    rw [hmap]
    exact h.2

/-- Claim C6, witness: the invariant holds for the demo store and is
preserved when the fresh record S3 is added to it. -/
theorem C6_witness :
    WF demoStore ∧ WF (add_student freshStudent demoStore).1 :=
  ⟨by decide,
   (C6_invariant demoStore freshStudent "S1" noUpdates (by decide)).2.2.2.1⟩

/-- Claim C7.  `get_all_students` is total; on the empty store it returns
the empty sequence; on a well-formed store it returns a permutation of all
stored records in strictly ascending id order; and its output is the same
for any two stores holding the same records, regardless of insertion
order. -/
theorem C7_get_all_sorted (m m₂ : StudentMap) (h : WF m) :
    get_all_students ([] : StudentMap) = []
    ∧ ((get_all_students m).map Student.sid).Sorted (· < ·)
    ∧ (get_all_students m).Perm (mapValues m)
    ∧ (m.Perm m₂ → get_all_students m = get_all_students m₂) :=
  ⟨rfl, get_all_sorted_strict m h, get_all_perm_values m h,
   fun hp => get_all_perm_store m m₂ h hp⟩

/-- Claim C7, witness: the demo store with reversed insertion order lists
the same records in the same (ascending-id) order as the original. -/
theorem C7_witness :
    WF demoStoreRev
    ∧ demoStoreRev.Perm demoStore
    ∧ get_all_students demoStoreRev = get_all_students demoStore :=
  ⟨by decide, by decide,
   (C7_get_all_sorted demoStoreRev demoStore (by decide)).2.2.2 (by decide)⟩

/-- Claim C8.  Parsing fails on any input text whose lowercased form yields
no recognized filter parameter but contains exploratory phrasing ("about"
or "who is"): the agent raises the parse-failure error. -/
theorem C8_parse_exploratory_fails (t : String)
    (hempty : extract_params (strLower t) = noParams)
    (hcue : (strIn "about" (strLower t) || strIn "who is" (strLower t)) = true) :
    parse_query t = .error "LLM failed to extract valid filtering parameters from the natural language input. Please try a more specific query." := by
  simp [parse_query, hempty, hcue]

/-- Claim C8, witness: the spec example "who is tall" yields no parameters,
contains the cue "who is", and fails with the parse-failure error. -/
theorem C8_witness :
    extract_params (strLower "who is tall") = noParams
    ∧ (strIn "about" (strLower "who is tall")
        || strIn "who is" (strLower "who is tall")) = true
    ∧ parse_query "who is tall"
        = .error "LLM failed to extract valid filtering parameters from the natural language input. Please try a more specific query." :=
  ⟨by decide, by decide,
   C8_parse_exploratory_fails "who is tall" (by decide) (by decide)⟩

/-- Claim C9.  `query_students_by_name` returns exactly the stored records
whose lowercased name contains the lowercased search string as a substring,
and the empty search string matches every record. -/
theorem C9_name_substring (m : StudentMap) (part : String) :
    (∀ s, s ∈ query_students_by_name part m
        ↔ s ∈ mapValues m ∧ (strLower part).data <:+: (strLower s.name).data)
    ∧ query_students_by_name "" m = mapValues m := by
  constructor
  · intro s
    simp [query_students_by_name, List.mem_filter, strIn]
  · unfold query_students_by_name
    refine List.filter_eq_self.mpr (fun s _ => ?_)
    show strIn (strLower "") (strLower s.name) = true
    have hnil : (strLower "").data = [] := rfl
    simp only [strIn, hnil, decide_eq_true_eq]
    exact List.nil_infix

/-- Claim C10.  The natural-language query result equals the records
satisfying the conjunction of all predicates present in the mapping, and
applying the five filter stages in any order gives the same result as the
source's fixed order. -/
theorem C10_filter_order_irrelevant (p : QueryParams) (m : StudentMap)
    (stages : List Stage) (h : stages.Perm sourceOrder) :
    query_by_natural_language p m = (mapValues m).filter (matchesParams p)
    ∧ applyStages stages p (mapValues m) = query_by_natural_language p m :=
  ⟨query_eq_filter_matches p m,
   (applyStages_perm_eq stages p (mapValues m) h).trans
     (query_eq_applyStages p m).symm⟩

/-- Claim C10, witness: running the five stages in reversed order on the
demo store with the mapping {gender: Female, age_min: 20} gives the same
result as the source pipeline. -/
theorem C10_witness :
    ([Stage.namePart, Stage.ageMax, Stage.ageMin, Stage.gender,
        Stage.major] : List Stage).Perm sourceOrder
    ∧ applyStages [Stage.namePart, Stage.ageMax, Stage.ageMin, Stage.gender,
        Stage.major] ⟨none, some "Female", some 20, none, none⟩
        (mapValues demoStore)
      = query_by_natural_language
          ⟨none, some "Female", some 20, none, none⟩ demoStore :=
  ⟨by decide,
   (C10_filter_order_irrelevant ⟨none, some "Female", some 20, none, none⟩
     demoStore _ (by decide)).2⟩

end StudentSystem
